import Mathlib

/-!
Verification development for the broadcast lifecycle engine of
`broadcast_bot.py`: the data model (`Broadcast`, `MessageRef`, `Claimer`),
the state store (`StateStore` dict of broadcasts plus the registered chat
list), the claim/unclaim/done callback handler, the expiration job, the
startup rehydration, the render/keyboard functions and the TTL parser are
shallowly embedded below, translated from the Python source.  Python `str`
values are modelled as `String` where only equality matters and as
`List Char` inside the TTL parser; Unix timestamps and chat ids are `Int`.
-/

set_option autoImplicit false

/-- `MessageRef` dataclass (source lines 56-59): one delivered copy of a
broadcast, identified by chat id and remote message id. -/
structure MessageRef where
  chat_id : Int
  message_id : Int
deriving Repr, DecidableEq

/-- `Claimer` dataclass (source lines 61-64). -/
structure Claimer where
  id : Int
  name : String
deriving Repr, DecidableEq

/-- `Broadcast` dataclass (source lines 66-78). -/
structure Broadcast where
  id : String
  text : String
  created_ts : Int
  ttl_min : Int
  messages : List MessageRef := []
  claimed_by : Option Claimer := none
  expired : Bool := false
  done : Bool := false
deriving Repr, DecidableEq

/-- `Broadcast.deadline_ts` (source lines 77-78). -/
def Broadcast.deadline_ts (b : Broadcast) : Int :=
  b.created_ts + b.ttl_min * 60

/-- The mutable `_state` of `StateStore` (source lines 84-93), restricted to
the fields the lifecycle engine uses: the registered chat list and the
broadcasts dict, the latter modelled as an association list keyed by the
broadcast id. -/
structure Store where
  chats : List Int
  broadcasts : List (String × Broadcast)
deriving Repr, DecidableEq

/-- Dict lookup `self._state["broadcasts"].get(bid)`. -/
def lookupB : List (String × Broadcast) → String → Option Broadcast
  | [], _ => none
  | (k, v) :: rest, bid => if k = bid then some v else lookupB rest bid

/-- Dict assignment `self._state["broadcasts"][bid] = asdict(bc)`: replace the
entry with that key, or append a fresh one. -/
def insertB : List (String × Broadcast) → String → Broadcast → List (String × Broadcast)
  | [], bid, b => [(bid, b)]
  | (k, v) :: rest, bid, b =>
    if k = bid then (bid, b) :: rest else (k, v) :: insertB rest bid b

/-- `StateStore.get_broadcast` (source lines 158-161). -/
def get_broadcast (st : Store) (bid : String) : Option Broadcast :=
  lookupB st.broadcasts bid

/-- `StateStore.upsert_broadcast` (source lines 154-156): keyed by `bc.id`. -/
def upsert_broadcast (st : Store) (b : Broadcast) : Store :=
  { st with broadcasts := insertB st.broadcasts b.id b }

/-- `StateStore.update_broadcast` (source lines 163-171): the single atomic
read-modify-write entry point of the store; returns the updated record (or
`none` when the id is unknown) together with the new store. -/
def update_broadcast (st : Store) (bid : String) (f : Broadcast → Broadcast) :
    Option Broadcast × Store :=
  match lookupB st.broadcasts bid with
  | none => (none, st)
  | some raw =>
    (some (f raw), { st with broadcasts := insertB st.broadcasts bid (f raw) })

/-- `StateStore.remove_chat` (source lines 142-148): drop the first
occurrence of the chat id, no-op when absent. -/
def remove_chat (st : Store) (cid : Int) : Store :=
  { st with chats := st.chats.erase cid }

/-! ## Claim / unclaim / done callback (source lines 474-524) -/

/-- The three callback actions matched by `on_callback` from the
`claim:|unclaim:|done:` callback-data pattern. -/
inductive CbAction where
  | claim
  | unclaim
  | done
deriving Repr, DecidableEq

/-- The distinguishable outcomes of `on_callback`: the alert answers sent on
the rejection paths, and the updated record on the success path. -/
inductive CbResult where
  | notFound
  | rejectedExpired
  | alreadyClaimed
  | notClaimed
  | forbidden
  | updated (b : Broadcast)
deriving Repr, DecidableEq

/-- The per-record decision logic of `on_callback` (source lines 486-514):
the `expired` guard, then the action dispatch with its claimed/permission
checks.  `isAdmin` stands for `await STATE.is_admin(user.id)`.  Note the
handler never consults `b.done`. -/
def applyAction (a : CbAction) (uid : Int) (uname : String) (isAdmin : Bool)
    (b : Broadcast) : CbResult :=
  if b.expired then .rejectedExpired
  else
    match a with
    | .claim =>
      match b.claimed_by with
      | some _ => .alreadyClaimed
      | none => .updated { b with claimed_by := some { id := uid, name := uname } }
    | .unclaim =>
      match b.claimed_by with
      | none => .notClaimed
      | some c =>
        if uid ≠ c.id ∧ isAdmin = false then .forbidden
        else .updated { b with claimed_by := none }
    | .done =>
      match b.claimed_by with
      | none => .notClaimed
      | some c =>
        if uid ≠ c.id ∧ isAdmin = false then .forbidden
        else .updated { b with done := true }

/-- `applyAction` followed by keeping the old record on a rejection: the net
record-level effect of one callback delivery. -/
def applyOr (a : CbAction) (uid : Int) (uname : String) (isAdmin : Bool)
    (b : Broadcast) : Broadcast :=
  match applyAction a uid uname isAdmin b with
  | .updated b2 => b2
  | _ => b

/-- The edit loop at the end of `on_callback` (source lines 519-524):
`for msg in bc.messages: try: safe_edit_text(...) except Exception: pass`.
`editOk m = true` means the edit for reference `m` succeeded; a failing edit
has no effect at all.  Returns the references that received the update. -/
def updateFanout (editOk : MessageRef → Bool) : List MessageRef → List MessageRef
  | [] => []
  | m :: rest =>
    if editOk m then m :: updateFanout editOk rest else updateFanout editOk rest

/-- Everything observable about one `on_callback` run. -/
structure CallbackRun where
  store : Store
  result : CbResult
  delivered : List MessageRef
deriving Repr, DecidableEq

/-- `on_callback` (source lines 474-524) end to end: look the record up with
`get_broadcast`, decide with the guards above, and on success write it back
with `upsert_broadcast` and run the edit loop.  The rejection paths leave the
store untouched. -/
def on_callback (st : Store) (a : CbAction) (bid : String) (uid : Int)
    (uname : String) (isAdmin : Bool) (editOk : MessageRef → Bool) : CallbackRun :=
  match lookupB st.broadcasts bid with
  | none => { store := st, result := .notFound, delivered := [] }
  | some bc =>
    match applyAction a uid uname isAdmin bc with
    | .updated bc2 =>
      { store := upsert_broadcast st bc2
        result := .updated bc2
        delivered := updateFanout editOk bc2.messages }
    | r => { store := st, result := r, delivered := [] }

/-! ## The claim race (source lines 474-524 vs 163-171)

`on_callback` reads the record with `get_broadcast`, mutates the local copy,
and writes it back with `upsert_broadcast`; it never goes through
`update_broadcast`.  Each store touch is individually serialized by the
store lock, but nothing serializes the pair, so two concurrent claim
callbacks may interleave as read / read / write / write.  The functions
below spell out the two store touches of one claim callback and compose that
interleaving. -/

/-- The local outcome a claim callback computes from the snapshot obtained in
its `get_broadcast` read. -/
def claimLocal (u : Claimer) (ob : Option Broadcast) : CbResult :=
  match ob with
  | none => .notFound
  | some b => applyAction .claim u.id u.name false b

/-- The `upsert_broadcast` write a claim callback performs when its local
outcome was a success; rejections write nothing. -/
def claimCommit (st : Store) (r : CbResult) : Store :=
  match r with
  | .updated b => upsert_broadcast st b
  | _ => st

/-- Two concurrent claim callbacks on the same id, interleaved as
read(u1) / read(u2) / write(u1) / write(u2) — an interleaving the handler
permits because the read and the write are separate lock acquisitions. -/
def twoClaimsInterleaved (st : Store) (bid : String) (u1 u2 : Claimer) :
    CbResult × CbResult × Store :=
  let r1 := claimLocal u1 (get_broadcast st bid)
  let r2 := claimLocal u2 (get_broadcast st bid)
  (r1, r2, claimCommit (claimCommit st r1) r2)

/-! ## Rendering (source lines 240-278) -/

/-- The status line chosen by `render_message` (source lines 263-271),
keeping the claimer name it interpolates. -/
inductive StatusLabel where
  | expiredL
  | doneL (name : String)
  | claimedL (name : String)
  | openL
deriving Repr, DecidableEq

/-- `bc.claimed_by.name if bc.claimed_by else` a dash (source line 267). -/
def claimNameOrDash (b : Broadcast) : String :=
  match b.claimed_by with
  | some c => c.name
  | none => "—"

/-- The rendered view as a value: `render_message` (source lines 263-278)
produces a string from exactly these pieces; the human-readable deadline is
modelled by the timestamp it formats (`format_deadline_local` only changes
its presentation, source lines 240-247). -/
structure Rendered where
  status : StatusLabel
  deadline_ts : Int
  ttl_min : Int
  text : String
deriving Repr, DecidableEq

/-- `render_message` (source lines 263-278). -/
def render_message (b : Broadcast) : Rendered :=
  { status :=
      if b.expired then .expiredL
      else if b.done then .doneL (claimNameOrDash b)
      else
        match b.claimed_by with
        | some c => .claimedL c.name
        | none => .openL
    deadline_ts := b.deadline_ts
    ttl_min := b.ttl_min
    text := b.text }

/-- The inline keyboard buttons (source lines 249-261). -/
inductive BtnAction where
  | claimBtn
  | unclaimBtn
  | doneBtn
deriving Repr, DecidableEq

/-- `build_keyboard` (source lines 249-261): `None` is modelled as `[]`. -/
def build_keyboard (b : Broadcast) : List BtnAction :=
  if b.expired then []
  else
    match b.claimed_by with
    | none => [.claimBtn]
    | some _ => if b.done = false then [.unclaimBtn, .doneBtn] else []

/-! ## Expiration (source lines 444-468) and startup rehydration (655-679) -/

/-- The updater `expire_job` passes to `update_broadcast`
(source line 455): `lambda x: setattr(x, "expired", True)`. -/
def expireUpd (b : Broadcast) : Broadcast :=
  { b with expired := true }

/-- The state effect of `expire_job` (source lines 453-458): one
`update_broadcast` call that unconditionally sets `expired`; an unknown id
leaves the store unchanged. -/
def expire_job (st : Store) (bid : String) : Store :=
  (update_broadcast st bid expireUpd).2

/-- What `post_init` (source lines 655-679) decides for one restored
broadcast: skip it, expire it on the spot, or re-arm the one-shot timer with
the remaining delay. -/
inductive RehydrateAction where
  | skip
  | expireNow
  | armTimer (delay : Int)
deriving Repr, DecidableEq

/-- The per-record body of the `post_init` loop (source lines 659-679):
terminal records are skipped; a past deadline is marked expired immediately
(`update_broadcast` with the same updater as `expire_job`); otherwise the
job queue is armed with `max(deadline - now, 0)` seconds. -/
def post_init_step (now : Int) (b : Broadcast) : RehydrateAction × Broadcast :=
  if b.done || b.expired then (.skip, b)
  else if b.deadline_ts ≤ now then (.expireNow, expireUpd b)
  else (.armTimer (max (b.deadline_ts - now) 0), b)

/-- The whole `post_init` pass over the restored snapshot. -/
def post_init (now : Int) (bcs : List Broadcast) : List (RehydrateAction × Broadcast) :=
  bcs.map (post_init_step now)

/-! ## Persistence (source lines 114-127) -/

/-- Whether the atomic snapshot write (`_write_json_atomic`) succeeds or
raises an I/O error. -/
inductive WriteOutcome where
  | ok
  | ioError
deriving Repr, DecidableEq

/-- Everything a caller of `StateStore.save` can observe. -/
structure SaveEffect where
  errorRaisedToCaller : Bool
  errorLogged : Bool
  stateAfter : Store
deriving Repr, DecidableEq

/-- `StateStore.save` (source lines 114-127): the write runs inside
`try/except Exception`; an exception is logged with `logging.exception` and
not re-raised, and the in-memory `_state` (holding the mutation that
triggered the save) is left exactly as it was. -/
def StateStore.save (st : Store) (w : WriteOutcome) : SaveEffect :=
  match w with
  | .ok => { errorRaisedToCaller := false, errorLogged := false, stateAfter := st }
  | .ioError => { errorRaisedToCaller := false, errorLogged := true, stateAfter := st }

/-! ## TTL parsing (source lines 210-238)

`parse_ttl_and_text` strips the raw command text, removes a leading
`/broadcast` token, and matches the regex

  `^(?:ttl\s*=\s*)?(?P<num>\d{1,3})\s*(?P<unit>m|min|мин|h|hr|ч|час)?\s*(?P<rest>.*)$`

case-insensitively.  The embedding below works on `List Char`.  Python
whitespace, word and digit classes are modelled by their ASCII parts, and
case folding by ASCII lowering plus the six Cyrillic capitals the unit
alternatives can meet.  Because `.*` cannot cross a newline and the pattern
is anchored by `$` on an already-stripped string, a match exists exactly
when the residue after the greedy digit / whitespace / unit prefix is
newline-free; the unit alternation is the one place where regex
backtracking matters (a shorter alternative such as `m` can leave a newline
in `rest` that a longer one such as `min` would have consumed), so the
candidates are tried in the regex order until one leaves a newline-free
rest.  Backtracking over the digit count or the optional `ttl=` group can
never turn a failure into a success, because digits cannot begin a unit and
a skipped `ttl` prefix cannot start with a digit. -/

/-- `\s` (ASCII part). -/
def isWs (c : Char) : Bool :=
  c = ' ' || c = '\t' || c = '\n' || c = '\r' || c = '\x0b' || c = '\x0c'

/-- Greedy `\s*`. -/
def dropWs : List Char → List Char
  | [] => []
  | c :: rest => if isWs c then dropWs rest else c :: rest

/-- Python `str.strip()`. -/
def stripChars (l : List Char) : List Char :=
  dropWs ((dropWs l.reverse).reverse)

/-- Case folding used by `re.IGNORECASE` and `.lower()`, restricted to the
letters the patterns contain. -/
def toLowerCh (c : Char) : Char :=
  if 'A' ≤ c ∧ c ≤ 'Z' then Char.ofNat (c.toNat + 32)
  else if c = 'М' then 'м'
  else if c = 'И' then 'и'
  else if c = 'Н' then 'н'
  else if c = 'Ч' then 'ч'
  else if c = 'А' then 'а'
  else if c = 'С' then 'с'
  else c

/-- Case-insensitive literal prefix test: does `l` start with the lowercase
pattern `p`? -/
def startsWithCI : List Char → List Char → Bool
  | [], _ => true
  | _ :: _, [] => false
  | p :: ps, c :: cs => if toLowerCh c = p then startsWithCI ps cs else false

/-- `\d` (ASCII part). -/
def isDigitCh (c : Char) : Bool :=
  '0' ≤ c ∧ c ≤ '9'

/-- Numeric value of an ASCII digit. -/
def digitVal (c : Char) : Nat :=
  c.toNat - '0'.toNat

/-- Greedy `\d{1,3}` followed by `int(...)`: up to three leading digits and
the remainder. -/
def takeDigits3 (l : List Char) : Option (Nat × List Char) :=
  match l with
  | [] => none
  | c1 :: r1 =>
    if isDigitCh c1 then
      match r1 with
      | [] => some (digitVal c1, [])
      | c2 :: r2 =>
        if isDigitCh c2 then
          match r2 with
          | [] => some (digitVal c1 * 10 + digitVal c2, [])
          | c3 :: r3 =>
            if isDigitCh c3 then
              some (digitVal c1 * 100 + digitVal c2 * 10 + digitVal c3, r3)
            else some (digitVal c1 * 10 + digitVal c2, r2)
        else some (digitVal c1, r1)
    else none

/-- The unit alternatives, in the order the regex tries them. -/
def unitAlts : List (List Char) :=
  ["m".toList, "min".toList, "мин".toList, "h".toList, "hr".toList,
   "ч".toList, "час".toList]

/-- The ways the optional unit group can go at position `l`, in regex order:
each alternative that matches as a prefix (producing the lowered matched
text, which Python then lowers again via `.lower()`), and finally the
skipped group, which Python replaces by the default unit `m`. -/
def unitCandidates (l : List Char) : List (List Char × List Char) :=
  (unitAlts.filterMap fun p =>
    if startsWithCI p l then some (p, l.drop p.length) else none) ++
  [("m".toList, l)]

/-- Does the would-be `rest` group contain a newline?  If so the anchored
`.*$` cannot match it and the regex backtracks to the next candidate. -/
def containsNl : List Char → Bool
  | [] => false
  | c :: r => if c = '\n' then true else containsNl r

/-- Take the first unit candidate whose residue, after the second `\s*`, is
newline-free; that residue is the `rest` group. -/
def firstViableRest : List (List Char × List Char) → Option (List Char × List Char)
  | [] => none
  | (u, r) :: more =>
    if containsNl (dropWs r) then firstViableRest more else some (u, dropWs r)

/-- A successful regex match: the digit value, the (lowered) unit group or
its default `m`, and the `rest` group. -/
structure TtlMatch where
  num : Nat
  unitStr : List Char
  rest : List Char
deriving Repr, DecidableEq

/-- The regex body after the optional `ttl=` group: digits, `\s*`, optional
unit, `\s*`, newline-free rest. -/
def ttlAttempt (l : List Char) : Option TtlMatch :=
  match takeDigits3 l with
  | none => none
  | some (n, r1) =>
    match firstViableRest (unitCandidates (dropWs r1)) with
    | none => none
    | some (u, rest) => some { num := n, unitStr := u, rest := rest }

/-- The optional greedy `ttl\s*=\s*` prefix group. -/
def tryTtlEq (l : List Char) : Option (List Char) :=
  if startsWithCI "ttl".toList l then
    match dropWs (l.drop 3) with
    | '=' :: r2 => some (dropWs r2)
    | _ => none
  else none

/-- The full anchored regex match of source lines 221-224: try the optional
`ttl=` group first, fall back to skipping it. -/
def matchTtl (l : List Char) : Option TtlMatch :=
  match tryTtlEq l with
  | some l2 =>
    match ttlAttempt l2 with
    | some m => some m
    | none => ttlAttempt l
  | none => ttlAttempt l

/-- `\w` (ASCII part), for the optional `@botname` suffix of the command. -/
def isWordCh (c : Char) : Bool :=
  ('a' ≤ c ∧ c ≤ 'z') || ('A' ≤ c ∧ c ≤ 'Z') || isDigitCh c = true || c = '_'

/-- Greedy `\w+` tail. -/
def dropWord : List Char → List Char
  | [] => []
  | c :: r => if isWordCh c then dropWord r else c :: r

/-- `re.sub(r"^/broadcast(@\w+)?\s*", "", s, flags=re.IGNORECASE)`
(source line 218). -/
def stripBroadcastCmd (l : List Char) : List Char :=
  if startsWithCI "/broadcast".toList l then
    let r := l.drop 10
    let r2 :=
      match r with
      | '@' :: c :: rest => if isWordCh c then dropWord (c :: rest) else r
      | _ => r
    dropWs r2
  else l

/-- The preprocessed string `s` of source lines 216-218: strip, remove the
command token, strip again. -/
def parsePre (raw : String) : List Char :=
  stripChars (stripBroadcastCmd (stripChars raw.toList))

/-- Is the lowered unit one of `("h", "hr", "ч", "час")` (source line 231)? -/
def isHourUnit (u : List Char) : Bool :=
  u = "h".toList || u = "hr".toList || u = "ч".toList || u = "час".toList

/-- `parse_ttl_and_text` (source lines 210-238).  Returns `(ttl_min, text)`;
the text is kept as `List Char`. -/
def parse_ttl_and_text (raw : String) (default_min : Int) : Int × List Char :=
  match matchTtl (parsePre raw) with
  | none => (default_min, parsePre raw)
  | some m =>
    let ttl : Int :=
      if isHourUnit m.unitStr then min (max ((m.num : Int) * 60) 1) 720
      else min (max (m.num : Int) 1) 180
    let rest := stripChars m.rest
    (ttl, if rest = [] then parsePre raw else rest)

/-- The creation guard of the `/broadcast` handler (source lines 399-409):
reject when the parsed text is empty, otherwise build the fresh record with
`claim=null, done=false, expired=false`. -/
inductive CreateOutcome where
  | rejectedEmptyText
  | created (b : Broadcast)
deriving Repr, DecidableEq

/-- `broadcast` command body, state part (source lines 399-409). -/
def broadcastCreate (raw : String) (default_min : Int) (bid : String)
    (now : Int) : CreateOutcome :=
  let p := parse_ttl_and_text raw default_min
  if p.2 = [] then .rejectedEmptyText
  else .created { id := bid, text := String.mk p.2, created_ts := now, ttl_min := p.1 }

/-! ## Helper lemmas about the broadcasts dict -/

theorem lookupB_insertB (l : List (String × Broadcast)) (k : String) (v : Broadcast) :
    lookupB (insertB l k v) k = some v := by
  induction l with
  | nil => simp [insertB, lookupB]
  | cons p rest ih =>
    obtain ⟨k2, v2⟩ := p
    by_cases h : k2 = k <;> simp [insertB, lookupB, h, ih]

theorem insertB_insertB (l : List (String × Broadcast)) (k : String) (v v2 : Broadcast) :
    insertB (insertB l k v) k v2 = insertB l k v2 := by
  induction l with
  | nil => simp [insertB]
  | cons p rest ih =>
    obtain ⟨k3, v3⟩ := p
    by_cases h : k3 = k <;> simp [insertB, h, ih]

theorem insertB_self (l : List (String × Broadcast)) (k : String) (v : Broadcast)
    (h : lookupB l k = some v) : insertB l k v = l := by
  induction l with
  | nil => simp [lookupB] at h
  | cons p rest ih =>
    obtain ⟨k2, v2⟩ := p
    by_cases hk : k2 = k
    · subst hk
      simp [lookupB] at h
      simp [insertB, h]
    · simp [lookupB, hk] at h
      simp [insertB, hk, ih h]

theorem updateFanout_eq_filter (editOk : MessageRef → Bool) (l : List MessageRef) :
    updateFanout editOk l = l.filter editOk := by
  induction l with
  | nil => rfl
  | cons x rest ih => by_cases h : editOk x <;> simp [updateFanout, List.filter_cons, h, ih]

theorem updateFanout_mem (editOk : MessageRef → Bool) (l : List MessageRef)
    (m : MessageRef) : m ∈ updateFanout editOk l ↔ m ∈ l ∧ editOk m = true := by
  simp [updateFanout_eq_filter, List.mem_filter]

theorem applyAction_messages (a : CbAction) (uid : Int) (uname : String)
    (isAdmin : Bool) (b b2 : Broadcast)
    (h : applyAction a uid uname isAdmin b = .updated b2) :
    b2.messages = b.messages ∧ b2.id = b.id := by
  unfold applyAction at h
  by_cases he : b.expired <;> simp [he] at h
  cases a <;> cases hc : b.claimed_by <;> simp [hc] at h <;>
    first
      | (obtain ⟨rfl⟩ := h; exact ⟨rfl, rfl⟩)
      | (split at h <;> simp_all; obtain ⟨rfl⟩ := h; exact ⟨rfl, rfl⟩)

/-! ## Concrete fixtures used by the claim theorems -/

/-- An open request: `claim=null, done=false, expired=false`, delivered to
chats 10 and 20. -/
def openReq : Broadcast :=
  { id := "r1", text := "RUB", created_ts := 0, ttl_min := 15
    messages := [{ chat_id := 10, message_id := 1 }, { chat_id := 20, message_id := 2 }] }

/-- A store holding exactly the open request above, with chats 10 and 20
registered. -/
def openStore : Store :=
  { chats := [10, 20], broadcasts := [("r1", openReq)] }

/-- A completed-but-not-expired request, claimed by actor 1. -/
def doneReq : Broadcast :=
  { openReq with claimed_by := some { id := 1, name := "A" }, done := true }

/-- A store holding exactly the completed request above. -/
def doneStore : Store :=
  { chats := [10, 20], broadcasts := [("r1", doneReq)] }

/-- C1: the spec requires every transition to run through the atomic
`update_broadcast` so that two concurrent `claim` calls yield exactly one
success and one AlreadyClaimed.  The code instead reads with
`get_broadcast` and writes with `upsert_broadcast`, so the
read/read/write/write interleaving of `claim(r1, A)` and `claim(r1, B)` is
possible; evaluated on the open request it makes BOTH callbacks report
success, and the second write silently overwrites the claim of the first
winner (a lost update). -/
theorem claim_race_lost_update :
    twoClaimsInterleaved openStore "r1" { id := 1, name := "A" } { id := 2, name := "B" } =
      (.updated { openReq with claimed_by := some { id := 1, name := "A" } },
       .updated { openReq with claimed_by := some { id := 2, name := "B" } },
       { openStore with
          broadcasts := [("r1", { openReq with claimed_by := some { id := 2, name := "B" } })] }) := by
  decide

/-- C2: the spec makes `done` terminal, but `on_callback` only guards on
`expired`: an `unclaim` on the completed (not expired) request is accepted
and clears `claimed_by` instead of being rejected, and a second `done` on it
is likewise accepted rather than rejected. -/
theorem done_record_unclaim_accepted :
    applyAction .unclaim 1 "A" false doneReq = .updated { doneReq with claimed_by := none } ∧
    applyAction .done 1 "A" false doneReq = .updated doneReq := by
  decide

/-- C3: the sequence claim(actor 1) → done(actor 1) → unclaim(actor 1) is
accepted step by step by `on_callback`, and its final record has
`done = true` together with `claimed_by = null` — the done-but-unclaimed
state the invariant forbids is reachable. -/
theorem done_unclaimed_reachable :
    ((applyOr .unclaim 1 "A" false
        (applyOr .done 1 "A" false
          (applyOr .claim 1 "A" false openReq))).done = true ∧
     (applyOr .unclaim 1 "A" false
        (applyOr .done 1 "A" false
          (applyOr .claim 1 "A" false openReq))).claimed_by = none) ∧
    applyAction .claim 1 "A" false openReq ≠ .alreadyClaimed ∧
    applyAction .claim 1 "A" false openReq ≠ .rejectedExpired := by
  decide

/-- C4 counterexample: the claim says `expire(id)` is a no-op when the
record is already `done`.  On the completed (not yet expired) request the
expire job is not a no-op: it flips `expired` to true, changing the stored
record. -/
theorem expire_changes_done_record :
    expire_job doneStore "r1" ≠ doneStore ∧
    lookupB (expire_job doneStore "r1").broadcasts "r1" =
      some { doneReq with expired := true } := by
  decide

/-- C4 amended: `expire_job` unconditionally sets `expired := true` through
`update_broadcast` (it is NOT a no-op on an already-done record); it is a
no-op on an already-expired record, and running it twice yields the same
final store as running it once, the second run a no-op rather than an
error. -/
theorem expire_idempotent (st : Store) (bid : String) :
    expire_job (expire_job st bid) bid = expire_job st bid ∧
    (∀ b, lookupB st.broadcasts bid = some b → b.expired = true →
      expire_job st bid = st) ∧
    (∀ b, lookupB st.broadcasts bid = some b →
      lookupB (expire_job st bid).broadcasts bid = some { b with expired := true }) := by
  refine ⟨?_, ?_, ?_⟩
  · cases h : lookupB st.broadcasts bid with
    | none => simp [expire_job, update_broadcast, h]
    | some b =>
      have h1 : expire_job st bid =
          { st with broadcasts := insertB st.broadcasts bid (expireUpd b) } := by
        simp [expire_job, update_broadcast, h]
      have h2 : lookupB (insertB st.broadcasts bid (expireUpd b)) bid =
          some (expireUpd b) := lookupB_insertB _ _ _
      have h3 : expireUpd (expireUpd b) = expireUpd b := by
        simp [expireUpd]
      simp [h1, expire_job, update_broadcast, h, h2, h3, insertB_insertB]
  · intro b hb hexp
    have h3 : expireUpd b = b := by
      cases b
      simp_all [expireUpd]
    simp [expire_job, update_broadcast, hb, h3, insertB_self _ _ _ hb]
  · intro b hb
    simp [expire_job, update_broadcast, hb, expireUpd, lookupB_insertB]

/-- C4 witness: the amended statement applied at a concrete expired record
and a concrete store. -/
theorem expire_idempotent_witness :
    expire_job (expire_job openStore "r1") "r1" = expire_job openStore "r1" ∧
    expire_job { chats := [], broadcasts := [("r1", { openReq with expired := true })] } "r1" =
      { chats := [], broadcasts := [("r1", { openReq with expired := true })] } :=
  ⟨(expire_idempotent openStore "r1").1,
   (expire_idempotent _ "r1").2.1 { openReq with expired := true } (by decide) (by decide)⟩

/-- C5 counterexample: when the durable snapshot write fails,
`StateStore.save` does not surface the failure to the caller — the
exception is caught and only logged — and the in-memory state (holding the
mutation that triggered the save) is kept as committed. -/
theorem save_error_not_raised :
    (StateStore.save openStore .ioError).errorRaisedToCaller = false ∧
    (StateStore.save openStore .ioError).stateAfter = openStore ∧
    (StateStore.save openStore .ioError).errorLogged = true := by
  decide

/-- C5 amended: `StateStore.save` never raises to the caller, regardless of
the write outcome; a failed write is logged and the in-memory mutation
stays in place (the operation proceeds as committed), so persistence errors
are swallowed after logging rather than propagated. -/
theorem save_swallows_persistence_error (st : Store) (w : WriteOutcome) :
    (StateStore.save st w).errorRaisedToCaller = false ∧
    (StateStore.save st w).stateAfter = st ∧
    ((StateStore.save st w).errorLogged = true ↔ w = .ioError) := by
  cases w <;> simp [StateStore.save]

/-- C5 amended witness: the amended statement applied at the concrete store
and the failing write outcome. -/
theorem save_swallows_persistence_error_witness :
    (StateStore.save doneStore .ioError).errorRaisedToCaller = false ∧
    (StateStore.save doneStore .ioError).stateAfter = doneStore ∧
    ((StateStore.save doneStore .ioError).errorLogged = true ↔
      WriteOutcome.ioError = WriteOutcome.ioError) :=
  ⟨(save_swallows_persistence_error doneStore .ioError).1,
   (save_swallows_persistence_error doneStore .ioError).2.1,
   (save_swallows_persistence_error doneStore .ioError).2.2⟩

/-- C6 counterexample: during the fan-out of a successful claim update, the
edit towards chat 10 fails permanently while the edit towards chat 20
succeeds.  Chat 10 is NOT removed from the recipient registry, its delivery
reference is NOT discarded from the record, chat 20 still gets its update,
and the transition reports success — so the removal/discard part of the
claim is false on the code. -/
theorem claim_fanout_keeps_unreachable :
    on_callback openStore .claim "r1" 5 "E" false (fun m => m.chat_id != 10) =
      { store :=
          { chats := [10, 20]
            broadcasts :=
              [("r1", { openReq with claimed_by := some { id := 5, name := "E" } })] }
        result := .updated { openReq with claimed_by := some { id := 5, name := "E" } }
        delivered := [{ chat_id := 20, message_id := 2 }] } := by
  decide

/-- C6 amended: during the fan-out of a transition update, every delivery
failure (of any classification, permanent unreachability included) is
caught and ignored: the recipient registry is never touched, the delivery
references of the record are kept unchanged, every reference whose edit
succeeds still receives the update, and the outcome of the transition does
not depend on the delivery outcomes at all.  (Channel removal on permanent
failure happens only in the initial send loop of `broadcast`.) -/
theorem transition_fanout_ignores_failures (st : Store) (a : CbAction)
    (bid : String) (uid : Int) (uname : String) (isAdmin : Bool)
    (editOk : MessageRef → Bool) :
    (on_callback st a bid uid uname isAdmin editOk).store.chats = st.chats ∧
    (∀ bc bc2, lookupB st.broadcasts bid = some bc →
      (on_callback st a bid uid uname isAdmin editOk).result = .updated bc2 →
      bc2.messages = bc.messages) ∧
    (∀ bc2 m, (on_callback st a bid uid uname isAdmin editOk).result = .updated bc2 →
      m ∈ bc2.messages → editOk m = true →
      m ∈ (on_callback st a bid uid uname isAdmin editOk).delivered) ∧
    (on_callback st a bid uid uname isAdmin editOk).result =
      (on_callback st a bid uid uname isAdmin (fun _ => true)).result := by
  cases h : lookupB st.broadcasts bid with
  | none => simp [on_callback, h]
  | some bc =>
    cases ha : applyAction a uid uname isAdmin bc with
    | updated bc2 =>
      refine ⟨?_, ?_, ?_, ?_⟩
      · simp [on_callback, h, ha, upsert_broadcast]
      · intro bc0 bc3 hbc0 hres
        simp [on_callback, h, ha] at hres
        obtain rfl : bc = bc0 := by injection hbc0
        obtain rfl : bc2 = bc3 := hres
        exact (applyAction_messages a uid uname isAdmin bc bc2 ha).1
      · intro bc3 m hres hm he
        simp [on_callback, h, ha] at hres ⊢
        subst hres
        exact (updateFanout_mem editOk bc2.messages m).mpr ⟨hm, he⟩
      · simp [on_callback, h, ha]
    | notFound => simp [on_callback, h, ha]
    | rejectedExpired => simp [on_callback, h, ha]
    | alreadyClaimed => simp [on_callback, h, ha]
    | notClaimed => simp [on_callback, h, ha]
    | forbidden => simp [on_callback, h, ha]

/-- C6 amended witness: the amended statement applied to the concrete claim
fan-out with the failing chat-10 edit. -/
theorem transition_fanout_ignores_failures_witness :
    (on_callback openStore .claim "r1" 5 "E" false (fun m => m.chat_id != 10)).store.chats =
      openStore.chats ∧
    { chat_id := 20, message_id := 2 } ∈
      (on_callback openStore .claim "r1" 5 "E" false (fun m => m.chat_id != 10)).delivered :=
  ⟨(transition_fanout_ignores_failures openStore .claim "r1" 5 "E" false
      (fun m => m.chat_id != 10)).1,
   (transition_fanout_ignores_failures openStore .claim "r1" 5 "E" false
      (fun m => m.chat_id != 10)).2.2.1
     { openReq with claimed_by := some { id := 5, name := "E" } }
     { chat_id := 20, message_id := 2 } (by decide) (by decide) (by decide)⟩

/-- The action-set rule exactly as the claim words it: `{claim}` when open
(unclaimed, not done, not expired), `{unclaim, complete}` when
claimed-and-not-done, `{}` in every other case. -/
def claimedActionRule (b : Broadcast) : List BtnAction :=
  if b.claimed_by = none ∧ b.done = false ∧ b.expired = false then [.claimBtn]
  else if b.claimed_by ≠ none ∧ b.done = false then [.unclaimBtn, .doneBtn]
  else []

/-- The action-set rule the code actually implements, stated by field
predicates: `{claim}` whenever the record is unclaimed and not expired
(even if `done` is already set), `{unclaim, complete}` when claimed, not
done and not expired, `{}` otherwise. -/
def codeActionRule (b : Broadcast) : List BtnAction :=
  if b.claimed_by = none ∧ b.expired = false then [.claimBtn]
  else if b.claimed_by ≠ none ∧ b.done = false ∧ b.expired = false then
    [.unclaimBtn, .doneBtn]
  else []

/-- The status selection as the spec words it: priority
expired > done > claimed > open. -/
def statusByPriority (b : Broadcast) : StatusLabel :=
  if b.expired = true then .expiredL
  else if b.done = true then .doneL (claimNameOrDash b)
  else if b.claimed_by ≠ none then .claimedL (claimNameOrDash b)
  else .openL

/-- C7 counterexample: on the done-but-unclaimed record (reachable, see the
unclaim-after-done slip) the keyboard offers the claim button although the
claimed rule demands no action on a done record — `build_keyboard` and the
claimed action set differ at this record. -/
theorem keyboard_on_done_unclaimed :
    build_keyboard { openReq with done := true } = [.claimBtn] ∧
    claimedActionRule { openReq with done := true } = [] ∧
    build_keyboard { openReq with done := true } ≠
      claimedActionRule { openReq with done := true } := by
  decide

/-- C7 amended: the rendered view is a pure function of the record fields;
the status label follows the priority expired > done > claimed > open, and
the available actions are `{claim}` whenever the record is unclaimed and
not expired (including the anomalous done-but-unclaimed state),
`{unclaim, complete}` when claimed, not done and not expired, and `{}`
otherwise (in particular a claimed, unfinished but expired record offers no
actions). -/
theorem render_priority_and_actions (b : Broadcast) :
    (render_message b).status = statusByPriority b ∧
    build_keyboard b = codeActionRule b ∧
    (render_message b).deadline_ts = b.created_ts + b.ttl_min * 60 := by
  refine ⟨?_, ?_, rfl⟩
  · cases he : b.expired <;> cases hd : b.done <;> cases hc : b.claimed_by <;>
      simp [render_message, statusByPriority, claimNameOrDash, he, hd, hc]
  · cases he : b.expired <;> cases hd : b.done <;> cases hc : b.claimed_by <;>
      simp [build_keyboard, codeActionRule, he, hd, hc]

/-- C8: for every non-terminal broadcast found in the restored snapshot,
`post_init` either marks it expired on the spot (when its deadline is
already past) or re-arms the one-shot timer with `max(deadline - now, 0)`
seconds; the processed pair is part of the rehydration pass over the whole
snapshot. -/
theorem post_init_rearm (now : Int) (bcs : List Broadcast) (b : Broadcast)
    (hmem : b ∈ bcs) (hdone : b.done = false) (hexp : b.expired = false) :
    post_init_step now b ∈ post_init now bcs ∧
    (b.deadline_ts ≤ now →
      post_init_step now b = (.expireNow, { b with expired := true })) ∧
    (now < b.deadline_ts →
      post_init_step now b = (.armTimer (max (b.deadline_ts - now) 0), b) ∧
      max (b.deadline_ts - now) 0 = b.deadline_ts - now) := by
  refine ⟨List.mem_map_of_mem _ hmem, ?_, ?_⟩
  · intro hle
    simp [post_init_step, hdone, hexp, hle, expireUpd]
  · intro hlt
    have hnle : ¬ b.deadline_ts ≤ now := not_le.mpr hlt
    constructor
    · simp [post_init_step, hdone, hexp, hnle]
    · omega

/-- C8 witness: the live broadcast (deadline 900) is expired on the spot
when the process restarts at `now = 1000`, and re-armed with the remaining
870 seconds when it restarts at `now = 30`. -/
theorem post_init_rearm_witness :
    post_init_step 1000 openReq ∈ post_init 1000 [openReq] ∧
    openReq.deadline_ts ≤ 1000 ∧
    post_init_step 1000 openReq = (.expireNow, { openReq with expired := true }) ∧
    (30 : Int) < openReq.deadline_ts ∧
    post_init_step 30 openReq =
      (.armTimer (max (openReq.deadline_ts - 30) 0), openReq) ∧
    max (openReq.deadline_ts - 30) 0 = openReq.deadline_ts - 30 :=
  ⟨(post_init_rearm 1000 [openReq] openReq (by decide) (by decide) (by decide)).1,
   by decide,
   (post_init_rearm 1000 [openReq] openReq (by decide) (by decide) (by decide)).2.1 (by decide),
   by decide,
   ((post_init_rearm 30 [openReq] openReq (by decide) (by decide) (by decide)).2.2 (by decide)).1,
   ((post_init_rearm 30 [openReq] openReq (by decide) (by decide) (by decide)).2.2 (by decide)).2⟩

/-- C9: for every input string, as long as the configured default TTL lies
in the range 1-720, the TTL returned by `parse_ttl_and_text` lies in
1-720: a matched hour unit is clamped to `min(max(num*60,1),720)`, a
matched minute unit to `min(max(num,1),180)`, and an unmatched input falls
back to the default. -/
theorem ttl_always_bounded (raw : String) (d : Int) (h1 : 1 ≤ d) (h2 : d ≤ 720) :
    1 ≤ (parse_ttl_and_text raw d).1 ∧ (parse_ttl_and_text raw d).1 ≤ 720 := by
  cases h : matchTtl (parsePre raw) with
  | none =>
    simp [parse_ttl_and_text, h]
    omega
  | some m =>
    simp only [parse_ttl_and_text, h]
    split_ifs <;> constructor <;> omega

/-- C9 witness: the bound applied at the concrete command
`/broadcast 999h огромный срок` (which clamps 999 hours down to 720
minutes) with the default TTL 15. -/
theorem ttl_always_bounded_witness :
    (1 : Int) ≤ 15 ∧ (15 : Int) ≤ 720 ∧
    (1 ≤ (parse_ttl_and_text "/broadcast 999h огромный срок" 15).1 ∧
      (parse_ttl_and_text "/broadcast 999h огромный срок" 15).1 ≤ 720) ∧
    (parse_ttl_and_text "/broadcast 999h огромный срок" 15).1 = 720 :=
  ⟨by norm_num, by norm_num,
   ttl_always_bounded "/broadcast 999h огромный срок" 15 (by norm_num) (by norm_num),
   by decide⟩

/-- C10: whenever the command text consists solely of a TTL token with no
following body (the regex rest group is empty), `parse_ttl_and_text` keeps
`text = s` — the whole stripped string, i.e. the TTL numerals themselves —
and the `/broadcast` handler therefore passes its empty-text guard and
creates the request with the numeral as the broadcast body instead of
rejecting it. -/
theorem ttl_only_token_text (raw : String) (d : Int) (bid : String) (now : Int)
    (m : TtlMatch) (h : matchTtl (parsePre raw) = some m) (hr : m.rest = []) :
    (parse_ttl_and_text raw d).2 = parsePre raw ∧
    broadcastCreate raw d bid now =
      .created { id := bid, text := String.mk (parsePre raw), created_ts := now
                 ttl_min := (parse_ttl_and_text raw d).1 } := by
  have htext : (parse_ttl_and_text raw d).2 = parsePre raw := by
    simp [parse_ttl_and_text, h, hr, stripChars, dropWs]
  have hne : parsePre raw ≠ [] := by
    intro he
    rw [he] at h
    have : matchTtl ([] : List Char) = none := by decide
    rw [this] at h
    exact Option.noConfusion h
  refine ⟨htext, ?_⟩
  simp only [broadcastCreate, htext]
  rw [if_neg hne]

/-- C10 witness: the command `/broadcast 30`, whose stripped text is
exactly the TTL token `30`: the parse yields `(30, "30")` and creation
proceeds with body `"30"`. -/
theorem ttl_only_token_text_witness :
    matchTtl (parsePre "/broadcast 30") =
      some { num := 30, unitStr := "m".toList, rest := [] } ∧
    (parse_ttl_and_text "/broadcast 30" 15).2 = parsePre "/broadcast 30" ∧
    broadcastCreate "/broadcast 30" 15 "b1" 0 =
      .created { id := "b1", text := String.mk (parsePre "/broadcast 30"), created_ts := 0
                 ttl_min := (parse_ttl_and_text "/broadcast 30" 15).1 } ∧
    String.mk (parsePre "/broadcast 30") = "30" ∧
    (parse_ttl_and_text "/broadcast 30" 15).1 = 30 :=
  ⟨by decide,
   (ttl_only_token_text "/broadcast 30" 15 "b1" 0
      { num := 30, unitStr := "m".toList, rest := [] } (by decide) (by decide)).1,
   (ttl_only_token_text "/broadcast 30" 15 "b1" 0
      { num := 30, unitStr := "m".toList, rest := [] } (by decide) (by decide)).2,
   by decide, by decide⟩
